import Mathlib

/-!
Verification of the `Configuration` component of `skeleton/config.py`.

The Python code is shallowly embedded: the `dict`-backed configuration
object becomes a structure holding the user-supplied override mapping
(`_user_options`) and the effective key/value store (the `dict` contents);
Python dictionaries become insertion-ordered association lists with
Python `dict` semantics (assignment replaces a present key in place and
appends an absent one); exceptions become an `Except` error type carrying
the exact message built by the source.
-/

namespace Skeleton

/-- Scalar values as they occur in the option schema and in JSON
configuration data: `None`, strings, integers and booleans. -/
inductive Val where
  | null
  | str (s : String)
  | int (n : Int)
  | bool (b : Bool)
deriving DecidableEq, Repr

/-- A Python `dict` with string keys: an insertion-ordered association list. -/
abbrev Dict := List (String × Val)

namespace Dict

/-- Python `d[k]` / `d.get(k)` lookup: first (and, for well-formed dicts,
only) binding of the key. -/
def lookup : Dict → String → Option Val
  | [], _ => none
  | (k, v) :: rest, key => if key = k then some v else lookup rest key

/-- Python `key in d` membership test. -/
def hasKey (d : Dict) (k : String) : Bool :=
  (lookup d k).isSome

/-- Python `d[k] = v`: replace the binding in place when the key is
present, append it otherwise. -/
def setItem : Dict → String → Val → Dict
  | [], key, v => [(key, v)]
  | (k, w) :: rest, key, v =>
    if key = k then (k, v) :: rest else (k, w) :: setItem rest key v

/-- Python `d.update(e)`: item assignment for every entry of `e`, in order. -/
def update (d e : Dict) : Dict :=
  e.foldl (fun acc p => setItem acc p.1 p.2) d

/-- The key list of a dict, in insertion order. -/
def keys (d : Dict) : List String :=
  d.map Prod.fst

/-- The keys of the dict are pairwise distinct (true of every dict the
embedded code builds). -/
def KeysNodup (d : Dict) : Prop :=
  (keys d).Nodup

instance (d : Dict) : Decidable (KeysNodup d) := by
  unfold KeysNodup
  infer_instance

end Dict

/-- First-of-two option combinator: the value of `a` when present,
otherwise the value of `b`. -/
def orElseO (a b : Option Val) : Option Val :=
  match a with
  | some v => some v
  | none => b

/-- Python exceptions raised by the embedded code, with the message the
source builds. -/
inductive PyError where
  | valueError (msg : String)
  | typeError (msg : String)
  | keyError (key : String)
deriving DecidableEq, Repr

deriving instance DecidableEq for Except

/-- `Configuration.OPTIONS`: the Option Schema, an ordered mapping from
option name to default value.  Defaults are the constants of
`skeleton/const.py` (`DEFAULT_TIMEOUT = 60`, `logging.ERROR = 40`,
`__app_id__ = "skeleton-0.0.10"`, ...). -/
def OPTIONS : Dict := [
  ("client_cert", Val.null),
  ("connect_timeout", Val.int 60),
  ("log_datefmt", Val.str "%Y-%m-%d %H:%M:%S"),
  ("log_format",
    Val.str "(%(asctime)s) [%(levelname)s] %(name)s.%(funcName)s(%(lineno)d): %(message)s"),
  ("log_file", Val.null),
  ("log_filemode", Val.str "a+"),
  ("log_level", Val.int 40),
  ("log_style", Val.str "%"),
  ("max_pool_connections", Val.int 10),
  ("poolblock", Val.bool false),
  ("poolsize", Val.int 10),
  ("pool_timeout", Val.null),
  ("proxies", Val.null),
  ("proxies_config", Val.null),
  ("read_timeout", Val.int 60),
  ("retries", Val.int 0),
  ("user_agent", Val.str "skeleton-0.0.10"),
  ("verify", Val.bool false)
]

/-- `Configuration.keylist()`: the schema keys in schema order. -/
def keylist : List String :=
  Dict.keys OPTIONS

/-- A process environment: ordered name/value bindings, values are strings. -/
abbrev Env := List (String × String)

/-- `os.getenv(name, None)`: the value bound to `name`, if any. -/
def Env.getenv : Env → String → Option String
  | [], _ => none
  | (k, v) :: rest, key => if key = k then some v else Env.getenv rest key

/-- Python truthiness test used by `getenv`'s `not value or value is None`:
true for `None` and for the empty string. -/
def falsyEnv : Option String → Bool
  | none => true
  | some s => s.isEmpty

/-- One iteration of the loop body of `getenv` in `config.py`: skip the
name when `drop_null` and the value is falsy, otherwise assign the value
(or the default when the variable is absent). -/
def envStep (env : Env) (dflt : Val) (drop_null : Bool) (config : Dict)
    (key : String) : Dict :=
  if drop_null && falsyEnv (Env.getenv env key) then config
  else
    Dict.setItem config key
      (match Env.getenv env key with
       | some s => Val.str s
       | none => dflt)

/-- `getenv(keys, default, drop_null)` of `config.py`: fold the loop body
over the requested names, starting from the empty dict.  The environment
is taken as an explicit input and is only read, never written. -/
def getenv (env : Env) (names : List String) (dflt : Val)
    (drop_null : Bool) : Dict :=
  names.foldl (envStep env dflt drop_null) []

/-- The configuration object: the recorded user-supplied overrides
(`self._user_options`) and the effective store (the `dict` contents,
defaults overlaid with the overrides). -/
structure Configuration where
  user_options : Dict
  store : Dict
deriving DecidableEq, Repr

/-- The keyword loop of `Configuration._make_options`: reject the first
keyword that is not a schema option, otherwise assign it. -/
def addKwargs : List (String × Val) → Dict → Except PyError Dict
  | [], config => .ok config
  | (key, v) :: rest, config =>
    if Dict.hasKey OPTIONS key then addKwargs rest (Dict.setItem config key v)
    else .error (.valueError ("invalid key: " ++ key))

/-- The positional loop of `Configuration._make_options`: map the i-th
positional argument to the i-th schema key, rejecting a key already
supplied as a keyword. -/
def addArgs : List Val → List String → Dict → Except PyError Dict
  | [], _, config => .ok config
  | _ :: _, [], config => .ok config
  | arg :: args, key :: rest, config =>
    if Dict.hasKey config key then
      .error (.typeError ("multiple values for keyword argument: " ++ key))
    else addArgs args rest (Dict.setItem config key arg)

/-- `Configuration._make_options(*args, **kwargs)`: process keywords,
check the positional arity, then process positionals. -/
def makeOptions (args : List Val) (kwargs : List (String × Val)) :
    Except PyError Dict :=
  match addKwargs kwargs [] with
  | .error e => .error e
  | .ok config =>
    if args.length > keylist.length then
      .error (.typeError
        ("takes at most " ++ toString keylist.length ++ " arguments (" ++
          toString args.length ++ " given)"))
    else addArgs args keylist config

/-- `Configuration.__init__(*args, **kwargs)`: record the user options and
set the store to a copy of the defaults updated with them. -/
def Configuration.make (args : List Val) (kwargs : List (String × Val)) :
    Except PyError Configuration :=
  match makeOptions args kwargs with
  | .error e => .error e
  | .ok userOpts => .ok ⟨userOpts, Dict.update OPTIONS userOpts⟩

/-- `Configuration()` with no arguments: empty override set, store equal
to the schema defaults. -/
def defaultCfg : Configuration :=
  ⟨[], OPTIONS⟩

/-- `Configuration.validate_key(key, strict)`. -/
def validate_key (key : String) (strict : Bool) : Except PyError Bool :=
  if ¬ Dict.hasKey OPTIONS key then
    if strict then .error (.valueError ("non-existent option: " ++ key))
    else .ok false
  else .ok true

/-- `Configuration.set(key, value)`: reject an unrecognized key, otherwise
store the value directly (`dict.__setitem__`), leaving the recorded user
options unchanged. -/
def Configuration.set (c : Configuration) (key : String) (v : Val) :
    Except PyError Configuration :=
  if ¬ Dict.hasKey OPTIONS key then
    .error (.valueError ("non-existent option: " ++ key))
  else .ok ⟨c.user_options, Dict.setItem c.store key v⟩

/-- `Configuration.get(key, default, strict)`: unrecognized keys raise
only under `strict`, otherwise yield the default; recognized keys read
the store via `dict.__getitem__` (whose `KeyError` is unreachable on
constructed instances since every schema key is present). -/
def Configuration.get (c : Configuration) (key : String) (dflt : Val)
    (strict : Bool) : Except PyError Val :=
  if ¬ Dict.hasKey OPTIONS key then
    if strict then .error (.valueError ("non-existent option: " ++ key))
    else .ok dflt
  else
    match Dict.lookup c.store key with
    | some v => .ok v
    | none => .error (.keyError key)

/-- `Configuration.__getitem__`, which the class binds to `get` with its
default arguments (`default=None`, `strict=False`). -/
def Configuration.getItem (c : Configuration) (key : String) :
    Except PyError Val :=
  c.get key .null false

/-- `Configuration.as_dict()`: the effective key/value mapping. -/
def Configuration.as_dict (c : Configuration) : Dict :=
  c.store

/-- `Configuration.as_string()` is `json.dumps(self)`, the JSON encoding
of the effective mapping.  The JSON encode/decode pair is modelled as the
identity on the underlying mapping: for the scalar value types in play
(`null`, strings, integers, booleans) `json.loads(json.dumps(d)) == d`,
so a serialized configuration is represented by the mapping it denotes. -/
def Configuration.as_string (c : Configuration) : Dict :=
  c.store

/-- `Configuration.from_dict(value)`: copy the entries of the (parsed)
mapping, one option per entry, and construct. -/
def Configuration.from_dict (value : Dict) : Except PyError Configuration :=
  Configuration.make [] value

/-- `Configuration.get_env(key, default)`: validate the requested key
strictly, then construct with the literal keyword name `key` bound to
`os.getenv(key, default)` — exactly as the source does. -/
def Configuration.get_env (env : Env) (key : String) (dflt : Val) :
    Except PyError Configuration :=
  match validate_key key true with
  | .error e => .error e
  | .ok _ =>
    Configuration.make []
      [("key",
        match Env.getenv env key with
        | some s => Val.str s
        | none => dflt)]

/-- `Configuration.merge(other)`: a new Configuration constructed from a
copy of `self._user_options` updated with `other._user_options`. -/
def Configuration.merge (a b : Configuration) : Except PyError Configuration :=
  Configuration.make [] (Dict.update a.user_options b.user_options)

/-- `Configuration.merge_all(*others)`: a new Configuration constructed
from a copy of `self._user_options` updated with each other's user
options, iterating `others` in reversed order (`for other in
reversed(others)`). -/
def Configuration.merge_all (c : Configuration) (others : List Configuration) :
    Except PyError Configuration :=
  Configuration.make []
    (others.reverse.foldl (fun opts o => Dict.update opts o.user_options)
      c.user_options)

/-- Repeated pairwise merging `c.merge(o1).merge(o2)...`, the reference
point the spec compares `merge_all` against. -/
def mergeChain (c : Configuration) : List Configuration →
    Except PyError Configuration
  | [] => .ok c
  | o :: os =>
    match c.merge o with
    | .ok m => mergeChain m os
    | .error e => .error e

/-- Every key of the dict is a schema option. -/
def ValidKeys (d : Dict) : Prop :=
  ∀ k ∈ Dict.keys d, Dict.hasKey OPTIONS k = true

instance (d : Dict) : Decidable (ValidKeys d) := by
  unfold ValidKeys
  infer_instance

/-- Well-formedness invariant of constructed configurations: distinct,
schema-valid override keys, and a store equal to the defaults updated
with the overrides. -/
def Configuration.WF (c : Configuration) : Prop :=
  Dict.KeysNodup c.user_options ∧ ValidKeys c.user_options ∧
    c.store = Dict.update OPTIONS c.user_options

instance (c : Configuration) : Decidable c.WF := by
  unfold Configuration.WF
  infer_instance

/-- The example configuration with `proxies` overridden to `"C"`. -/
def cfgC : Configuration :=
  ⟨[("proxies", Val.str "C")], Dict.update OPTIONS [("proxies", Val.str "C")]⟩

/-- The example configuration with `proxies` overridden to `"D"`. -/
def cfgD : Configuration :=
  ⟨[("proxies", Val.str "D")], Dict.update OPTIONS [("proxies", Val.str "D")]⟩

/-! ### Dictionary lemmas -/

theorem Dict.lookup_setItem (d : Dict) (k : String) (v : Val) (key : String) :
    Dict.lookup (Dict.setItem d k v) key =
      if key = k then some v else Dict.lookup d key := by
  induction d with
  | nil => simp [Dict.setItem, Dict.lookup]
  | cons p rest ih =>
    obtain ⟨k', w⟩ := p
    by_cases hk : k = k'
    · subst hk
      by_cases hkey : key = k
      · subst hkey
        simp [Dict.setItem, Dict.lookup]
      · simp [Dict.setItem, Dict.lookup, hkey]
    · by_cases hkey : key = k'
      · subst hkey
        have hne : ¬ key = k := fun h => hk h.symm
        simp [Dict.setItem, Dict.lookup, hk, hne]
      · simp [Dict.setItem, Dict.lookup, hk, hkey, ih]

theorem Dict.hasKey_setItem (d : Dict) (k : String) (v : Val) (key : String) :
    Dict.hasKey (Dict.setItem d k v) key =
      (key = k || Dict.hasKey d key) := by
  by_cases h : key = k
  · simp [Dict.hasKey, Dict.lookup_setItem, h]
  · simp [Dict.hasKey, Dict.lookup_setItem, h]

theorem Dict.hasKey_iff_mem_keys (d : Dict) (k : String) :
    Dict.hasKey d k = true ↔ k ∈ Dict.keys d := by
  induction d with
  | nil => simp [Dict.hasKey, Dict.lookup, Dict.keys]
  | cons p rest ih =>
    obtain ⟨k', w⟩ := p
    by_cases h : k = k'
    · subst h
      simp [Dict.hasKey, Dict.lookup, Dict.keys]
    · simp only [Dict.hasKey, Dict.lookup, if_neg h, Dict.keys, List.map_cons,
        List.mem_cons] at ih ⊢
      rw [ih]
      simp [h]

theorem Dict.lookup_eq_none_of_not_mem (d : Dict) (k : String)
    (h : k ∉ Dict.keys d) : Dict.lookup d k = none := by
  rcases hl : Dict.lookup d k with _ | v
  · rfl
  · exact absurd ((Dict.hasKey_iff_mem_keys d k).mp (by simp [Dict.hasKey, hl])) h

theorem Dict.keys_setItem (d : Dict) (k : String) (v : Val) :
    Dict.keys (Dict.setItem d k v) =
      if Dict.hasKey d k = true then Dict.keys d else Dict.keys d ++ [k] := by
  induction d with
  | nil => simp [Dict.setItem, Dict.keys, Dict.hasKey, Dict.lookup]
  | cons p rest ih =>
    obtain ⟨k', w⟩ := p
    by_cases h : k = k'
    · subst h
      simp [Dict.setItem, Dict.keys, Dict.hasKey, Dict.lookup]
    · simp only [Dict.setItem, if_neg h, Dict.keys, List.map_cons, Dict.hasKey,
        Dict.lookup, if_neg h]
      simp only [Dict.keys, Dict.hasKey] at ih
      rw [ih]
      by_cases hr : (Dict.lookup rest k).isSome = true
      · simp [hr]
      · simp [hr]

theorem Dict.nodup_setItem (d : Dict) (k : String) (v : Val)
    (h : Dict.KeysNodup d) : Dict.KeysNodup (Dict.setItem d k v) := by
  unfold Dict.KeysNodup at h ⊢
  rw [Dict.keys_setItem]
  by_cases hk : Dict.hasKey d k = true
  · simpa [hk] using h
  · have hmem : k ∉ Dict.keys d := fun hm =>
      hk ((Dict.hasKey_iff_mem_keys d k).mpr hm)
    simp [hk, List.nodup_append, h, hmem]

theorem Dict.update_nil (d : Dict) : Dict.update d [] = d :=
  rfl

theorem Dict.update_cons (d : Dict) (p : String × Val) (e : Dict) :
    Dict.update d (p :: e) = Dict.update (Dict.setItem d p.1 p.2) e :=
  rfl

theorem Dict.nodup_tail (p : String × Val) (e : Dict)
    (he : Dict.KeysNodup (p :: e)) :
    Dict.KeysNodup e ∧ p.1 ∉ Dict.keys e := by
  unfold Dict.KeysNodup Dict.keys at he
  rw [List.map_cons, List.nodup_cons] at he
  exact ⟨he.2, he.1⟩

theorem Dict.lookup_update (d e : Dict) (k : String) (he : Dict.KeysNodup e) :
    Dict.lookup (Dict.update d e) k =
      orElseO (Dict.lookup e k) (Dict.lookup d k) := by
  induction e generalizing d with
  | nil => simp [Dict.update_nil, Dict.lookup, orElseO]
  | cons p rest ih =>
    obtain ⟨hrest, hnot⟩ := Dict.nodup_tail p rest he
    obtain ⟨k', v'⟩ := p
    rw [Dict.update_cons, ih _ hrest]
    by_cases h : k = k'
    · subst h
      rw [Dict.lookup_eq_none_of_not_mem rest k hnot]
      simp [Dict.lookup, Dict.lookup_setItem, orElseO]
    · simp [Dict.lookup, Dict.lookup_setItem, h, orElseO]

theorem Dict.hasKey_update (d e : Dict) (k : String) :
    Dict.hasKey (Dict.update d e) k = (Dict.hasKey d k || Dict.hasKey e k) := by
  induction e generalizing d with
  | nil => simp [Dict.update_nil, Dict.hasKey, Dict.lookup]
  | cons p rest ih =>
    obtain ⟨k', v'⟩ := p
    rw [Dict.update_cons, ih]
    by_cases h : k = k'
    · subst h
      simp [Dict.hasKey, Dict.lookup, Dict.lookup_setItem]
    · simp [Dict.hasKey, Dict.lookup, Dict.lookup_setItem, h]

theorem Dict.nodup_update (d e : Dict) (hd : Dict.KeysNodup d) :
    Dict.KeysNodup (Dict.update d e) := by
  induction e generalizing d with
  | nil => simpa [Dict.update_nil] using hd
  | cons p rest ih =>
    rw [Dict.update_cons]
    exact ih _ (Dict.nodup_setItem d p.1 p.2 hd)

theorem Dict.mem_keys_update (d e : Dict) (k : String)
    (h : k ∈ Dict.keys (Dict.update d e)) :
    k ∈ Dict.keys d ∨ k ∈ Dict.keys e := by
  have h' := (Dict.hasKey_iff_mem_keys _ k).mpr h
  rw [Dict.hasKey_update] at h'
  rcases Bool.or_eq_true_iff.mp h' with h1 | h2
  · exact Or.inl ((Dict.hasKey_iff_mem_keys d k).mp h1)
  · exact Or.inr ((Dict.hasKey_iff_mem_keys e k).mp h2)

theorem Dict.setItem_of_not_hasKey (d : Dict) (k : String) (v : Val)
    (h : Dict.hasKey d k = false) : Dict.setItem d k v = d ++ [(k, v)] := by
  induction d with
  | nil => simp [Dict.setItem]
  | cons p rest ih =>
    obtain ⟨k', w⟩ := p
    by_cases hk : k = k'
    · subst hk
      simp [Dict.hasKey, Dict.lookup] at h
    · simp only [Dict.hasKey, Dict.lookup, if_neg hk] at h
      simp [Dict.setItem, hk, ih, Dict.hasKey, h]

theorem Dict.hasKey_append (d e : Dict) (k : String) :
    Dict.hasKey (d ++ e) k = (Dict.hasKey d k || Dict.hasKey e k) := by
  induction d with
  | nil => simp [Dict.hasKey, Dict.lookup]
  | cons p rest ih =>
    obtain ⟨k', w⟩ := p
    by_cases h : k = k'
    · subst h
      simp [Dict.hasKey, Dict.lookup]
    · simpa [Dict.hasKey, Dict.lookup, h] using ih

theorem Dict.update_disjoint_append (d e : Dict) (he : Dict.KeysNodup e)
    (hdisj : ∀ k ∈ Dict.keys e, Dict.hasKey d k = false) :
    Dict.update d e = d ++ e := by
  induction e generalizing d with
  | nil => simp [Dict.update_nil]
  | cons p rest ih =>
    obtain ⟨hrest, hnotmem⟩ := Dict.nodup_tail p rest he
    obtain ⟨k', v'⟩ := p
    have hk' : Dict.hasKey d k' = false := hdisj k' (by simp [Dict.keys])
    rw [Dict.update_cons]
    simp only
    rw [Dict.setItem_of_not_hasKey d k' v' hk']
    rw [ih (d ++ [(k', v')]) hrest]
    · simp
    · intro k hk
      have hne : k ≠ k' := fun heq => hnotmem (heq ▸ hk)
      have hdk : Dict.hasKey d k = false :=
        hdisj k (by simp [Dict.keys, Dict.keys_setItem] at hk ⊢; right; exact hk)
      rw [Dict.hasKey_append, hdk]
      simp [Dict.hasKey, Dict.lookup, hne]

theorem Dict.nil_update (e : Dict) (he : Dict.KeysNodup e) :
    Dict.update [] e = e := by
  rw [Dict.update_disjoint_append [] e he]
  · simp
  · intro k _
    simp [Dict.hasKey, Dict.lookup]

/-! ### Constructor and merge lemmas -/

theorem valid_of_mem_valid (d : Dict) (hv : ValidKeys d) (p : String × Val)
    (hp : p ∈ d) : Dict.hasKey OPTIONS p.1 = true :=
  hv p.1 (List.mem_map_of_mem Prod.fst hp)

theorem valid_update (d e : Dict) (hd : ValidKeys d) (he : ValidKeys e) :
    ValidKeys (Dict.update d e) := by
  intro k hk
  rcases Dict.mem_keys_update d e k hk with h | h
  · exact hd k h
  · exact he k h

theorem addKwargs_ok (e : Dict) (config : Dict) (hv : ValidKeys e) :
    addKwargs e config = .ok (Dict.update config e) := by
  induction e generalizing config with
  | nil => simp [addKwargs, Dict.update_nil]
  | cons p rest ih =>
    obtain ⟨key, v⟩ := p
    have hk : Dict.hasKey OPTIONS key = true := hv key (by simp [Dict.keys])
    have hrest : ValidKeys rest := by
      intro k hmem
      exact hv k (by simp [Dict.keys] at hmem ⊢; right; exact hmem)
    simp only [addKwargs, hk, if_true]
    rw [ih _ hrest, Dict.update_cons]

theorem make_nil_ok (kw : Dict) (hn : Dict.KeysNodup kw) (hv : ValidKeys kw) :
    Configuration.make [] kw = .ok ⟨kw, Dict.update OPTIONS kw⟩ := by
  unfold Configuration.make makeOptions
  rw [addKwargs_ok kw [] hv, Dict.nil_update kw hn]
  simp [addArgs]

theorem make_nil_WF (kw : Dict) (hn : Dict.KeysNodup kw) (hv : ValidKeys kw) :
    Configuration.WF ⟨kw, Dict.update OPTIONS kw⟩ :=
  ⟨hn, hv, rfl⟩

theorem merge_ok (a b : Configuration) (ha : a.WF) (hb : b.WF) :
    a.merge b =
      .ok ⟨Dict.update a.user_options b.user_options,
        Dict.update OPTIONS (Dict.update a.user_options b.user_options)⟩ := by
  unfold Configuration.merge
  exact make_nil_ok _ (Dict.nodup_update _ _ ha.1) (valid_update _ _ ha.2.1 hb.2.1)

theorem merge_WF (a b : Configuration) (ha : a.WF) (hb : b.WF) :
    Configuration.WF
      ⟨Dict.update a.user_options b.user_options,
        Dict.update OPTIONS (Dict.update a.user_options b.user_options)⟩ :=
  ⟨Dict.nodup_update _ _ ha.1, valid_update _ _ ha.2.1 hb.2.1, rfl⟩

theorem make_eq_self (c : Configuration) (hc : c.WF) :
    Configuration.make [] c.user_options = .ok c := by
  rw [make_nil_ok c.user_options hc.1 hc.2.1, ← hc.2.2]

theorem merge_all_chain_aux (l : List Configuration) (c : Configuration)
    (hc : c.WF) (hl : ∀ o ∈ l, o.WF) :
    Configuration.make []
        (l.foldl (fun opts o => Dict.update opts o.user_options)
          c.user_options) =
      mergeChain c l := by
  induction l generalizing c with
  | nil =>
    simpa [mergeChain] using make_eq_self c hc
  | cons o rest ih =>
    have ho : o.WF := hl o (by simp)
    have hrest : ∀ x ∈ rest, x.WF := fun x hx => hl x (by simp [hx])
    have hm := merge_ok c o hc ho
    simp only [mergeChain, hm, List.foldl_cons]
    exact ih _ (merge_WF c o hc ho) hrest

/-! ### Environment reader lemmas -/

theorem getenv_nomem (env : Env) (dflt : Val) (dn : Bool) (names : List String)
    (config : Dict) (k : String) (h : k ∉ names) :
    Dict.lookup (names.foldl (envStep env dflt dn) config) k =
      Dict.lookup config k := by
  induction names generalizing config with
  | nil => rfl
  | cons n rest ih =>
    have hne : ¬ k = n := fun he => h (he ▸ List.mem_cons_self n rest)
    have hrest : k ∉ rest := fun hr => h (List.mem_cons_of_mem n hr)
    rw [List.foldl_cons, ih _ hrest]
    unfold envStep
    by_cases hb : (dn && falsyEnv (Env.getenv env n)) = true
    · rw [if_pos hb]
    · rw [if_neg hb, Dict.lookup_setItem, if_neg hne]

theorem getenv_drop_lookup (env : Env) (dflt : Val) (names : List String)
    (config : Dict) (k : String) (v : Val)
    (h : Dict.lookup (names.foldl (envStep env dflt true) config) k = some v) :
    (k ∈ names ∧ ∃ s, Env.getenv env k = some s ∧ v = Val.str s) ∨
      Dict.lookup config k = some v := by
  induction names generalizing config with
  | nil => exact Or.inr h
  | cons n rest ih =>
    rw [List.foldl_cons] at h
    rcases ih _ h with ⟨hmem, hex⟩ | hcfg
    · exact Or.inl ⟨List.mem_cons_of_mem n hmem, hex⟩
    · unfold envStep at hcfg
      by_cases hb : falsyEnv (Env.getenv env n) = true
      · rw [if_pos (by simp [hb])] at hcfg
        exact Or.inr hcfg
      · rw [if_neg (by simp [hb])] at hcfg
        rcases hv : Env.getenv env n with _ | s
        · rw [hv] at hb
          simp [falsyEnv] at hb
        · rw [hv] at hcfg
          rw [Dict.lookup_setItem] at hcfg
          by_cases hk : k = n
          · subst hk
            rw [if_pos rfl] at hcfg
            refine Or.inl ⟨List.mem_cons_self k rest, s, hv, ?_⟩
            exact (Option.some.inj hcfg).symm
          · rw [if_neg hk] at hcfg
            exact Or.inr hcfg

theorem getenv_keep_lookup (env : Env) (dflt : Val) (names : List String)
    (config : Dict) (k : String) (h : k ∈ names) :
    Dict.lookup (names.foldl (envStep env dflt false) config) k =
      some (match Env.getenv env k with
            | some s => Val.str s
            | none => dflt) := by
  induction names generalizing config with
  | nil => cases h
  | cons n rest ih =>
    rw [List.foldl_cons]
    by_cases hr : k ∈ rest
    · exact ih _ hr
    · have hk : k = n := by
        rcases List.mem_cons.mp h with h1 | h2
        · exact h1
        · exact absurd h2 hr
      subst hk
      rw [getenv_nomem env dflt false rest _ k hr]
      unfold envStep
      rw [if_neg (by simp), Dict.lookup_setItem, if_pos rfl]

theorem getenv_hasKey_mem (env : Env) (dflt : Val) (dn : Bool)
    (names : List String) (config : Dict) (k : String)
    (h : Dict.hasKey (names.foldl (envStep env dflt dn) config) k = true) :
    k ∈ names ∨ Dict.hasKey config k = true := by
  induction names generalizing config with
  | nil => exact Or.inr h
  | cons n rest ih =>
    rw [List.foldl_cons] at h
    rcases ih _ h with hmem | hcfg
    · exact Or.inl (List.mem_cons_of_mem n hmem)
    · unfold envStep at hcfg
      by_cases hb : (dn && falsyEnv (Env.getenv env n)) = true
      · rw [if_pos hb] at hcfg
        exact Or.inr hcfg
      · rw [if_neg hb, Dict.hasKey_setItem] at hcfg
        by_cases hk : k = n
        · exact Or.inl (hk ▸ List.mem_cons_self n rest)
        · rw [Bool.or_eq_true_iff] at hcfg
          rcases hcfg with h1 | h2
          · exact absurd (by simpa using h1) hk
          · exact Or.inr h2

/-! ### Auxiliary facts about the schema and the constructor -/

theorem OPTIONS_nodup : Dict.KeysNodup OPTIONS := by
  decide

theorem OPTIONS_valid : ValidKeys OPTIONS := by
  decide

/-- Python raised a `TypeError` (the spec's ArityError cases). -/
def isTypeError : Except PyError Configuration → Bool
  | .error (.typeError _) => true
  | _ => false

/-- The example configuration with `proxies` overridden to `"B"`. -/
def cfgB : Configuration :=
  ⟨[("proxies", Val.str "B")], Dict.update OPTIONS [("proxies", Val.str "B")]⟩

theorem addArgs_collision (args : List Val) (keys : List String) (config : Dict)
    (i : Nat) (key : String) (hi : i < args.length) (hk : keys.get? i = some key)
    (hc : Dict.hasKey config key = true) :
    ∃ msg, addArgs args keys config = .error (.typeError msg) := by
  induction args generalizing keys config i with
  | nil => simp at hi
  | cons a args ih =>
    cases keys with
    | nil => simp at hk
    | cons k0 krest =>
      by_cases h0 : Dict.hasKey config k0 = true
      · exact ⟨"multiple values for keyword argument: " ++ k0,
          by simp [addArgs, h0]⟩
      · cases i with
        | zero =>
          simp at hk
          subst hk
          exact absurd hc h0
        | succ j =>
          have hj : j < args.length := by simpa using hi
          have hk' : krest.get? j = some key := by simpa using hk
          have hc' : Dict.hasKey (Dict.setItem config k0 a) key = true := by
            rw [Dict.hasKey_setItem]
            simp [hc]
          obtain ⟨msg, hmsg⟩ := ih krest (Dict.setItem config k0 a) j hj hk' hc'
          exact ⟨msg, by simp [addArgs, h0, hmsg]⟩

/-! ### Claim theorems -/

/-- Claim C1: for well-formed configurations `a` and `b`, `a.merge(b)`
returns a new Configuration built from the union of the two user-supplied
override sets (defaults updated with that union), with `b`'s value taking
precedence on every key present in both; in particular, merging
`Configuration(proxies="B")` with `Configuration(proxies="C")` yields a
configuration whose `proxies` value is `"C"`. -/
theorem merge_union_other_wins (a b : Configuration) (k : String)
    (ha : a.WF) (hb : b.WF) :
    a.merge b = .ok ⟨Dict.update a.user_options b.user_options,
        Dict.update OPTIONS (Dict.update a.user_options b.user_options)⟩ ∧
    Dict.lookup (Dict.update a.user_options b.user_options) k =
      orElseO (Dict.lookup b.user_options k) (Dict.lookup a.user_options k) ∧
    Configuration.make [] [("proxies", Val.str "B")] = .ok cfgB ∧
    Configuration.make [] [("proxies", Val.str "C")] = .ok cfgC ∧
    cfgB.merge cfgC = .ok cfgC ∧
    cfgC.get "proxies" Val.null false = .ok (Val.str "C") :=
  ⟨merge_ok a b ha hb, Dict.lookup_update _ _ k hb.1,
    by decide, by decide, by decide, by decide⟩

/-- Witness for claim C1: the merge theorem applied at the two concrete
example configurations. -/
theorem merge_union_other_wins_witness :
    cfgB.merge cfgC = .ok ⟨Dict.update cfgB.user_options cfgC.user_options,
        Dict.update OPTIONS (Dict.update cfgB.user_options cfgC.user_options)⟩ ∧
    Dict.lookup (Dict.update cfgB.user_options cfgC.user_options) "proxies" =
      orElseO (Dict.lookup cfgC.user_options "proxies")
        (Dict.lookup cfgB.user_options "proxies") ∧
    Configuration.make [] [("proxies", Val.str "B")] = .ok cfgB ∧
    Configuration.make [] [("proxies", Val.str "C")] = .ok cfgC ∧
    cfgB.merge cfgC = .ok cfgC ∧
    cfgC.get "proxies" Val.null false = .ok (Val.str "C") :=
  merge_union_other_wins cfgB cfgC "proxies" (by decide) (by decide)

/-- Counterexample to claim C2 as stated: for
`base = Configuration()`, `o1 = Configuration(proxies="C")`,
`o2 = Configuration(proxies="D")`, `merge_all(o1, o2)` yields `"C"` for
`proxies` (the FIRST listed other wins), while the repeated pairwise
merge `base.merge(o1).merge(o2)` yields `"D"`; the two results differ, so
`merge_all` is neither last-one-wins nor equal to the left-to-right
pairwise chain. -/
theorem merge_all_first_other_wins_cex :
    Configuration.make [] [] = .ok defaultCfg ∧
    Configuration.make [] [("proxies", Val.str "C")] = .ok cfgC ∧
    Configuration.make [] [("proxies", Val.str "D")] = .ok cfgD ∧
    (defaultCfg.merge_all [cfgC, cfgD]).bind (fun m => m.getItem "proxies") =
      .ok (Val.str "C") ∧
    (mergeChain defaultCfg [cfgC, cfgD]).bind (fun m => m.getItem "proxies") =
      .ok (Val.str "D") ∧
    defaultCfg.merge_all [cfgC, cfgD] ≠ mergeChain defaultCfg [cfgC, cfgD] :=
  ⟨by decide, by decide, by decide, by decide, by decide, by decide⟩

/-- Claim C2 (amended): `merge_all(*others)` folds the others in
REVERSED order, so each earlier-listed other overrides later-listed ones
(on a key overridden by several of the others, the FIRST one listed
wins), and `c.merge_all(o1, ..., on)` equals the repeated pairwise merge
in reversed order, `c.merge(on).merge(o(n-1))...merge(o1)`. -/
theorem merge_all_reversed_chain (c : Configuration)
    (others : List Configuration) (hc : c.WF) (ho : ∀ o ∈ others, o.WF) :
    c.merge_all others = mergeChain c others.reverse := by
  unfold Configuration.merge_all
  exact merge_all_chain_aux others.reverse c hc
    (fun o hmem => ho o (List.mem_reverse.mp hmem))

/-- Witness for claim C2's amended theorem, at the counterexample's
configurations. -/
theorem merge_all_reversed_chain_witness :
    defaultCfg.merge_all [cfgC, cfgD] = mergeChain defaultCfg [cfgD, cfgC] :=
  merge_all_reversed_chain defaultCfg [cfgC, cfgD] (by decide) (by decide)

/-- Claim C3: constructing with an unrecognized keyword fails with
`ValueError("invalid key: <key>")`; `set` of an unrecognized key fails
with `ValueError("non-existent option: <key>")`; `set` of a recognized
key stores the value directly (no coercion) and without error. -/
theorem set_validation (badKey goodKey : String) (v w : Val)
    (c d : Configuration) (hbad : Dict.hasKey OPTIONS badKey = false)
    (hgood : Dict.hasKey OPTIONS goodKey = true) :
    Configuration.make [] [(badKey, v)] =
      .error (.valueError ("invalid key: " ++ badKey)) ∧
    c.set badKey v = .error (.valueError ("non-existent option: " ++ badKey)) ∧
    d.set goodKey w = .ok ⟨d.user_options, Dict.setItem d.store goodKey w⟩ ∧
    Dict.lookup (Dict.setItem d.store goodKey w) goodKey = some w := by
  refine ⟨?_, ?_, ?_, ?_⟩
  · simp [Configuration.make, makeOptions, addKwargs, hbad]
  · simp [Configuration.set, hbad]
  · simp [Configuration.set, hgood]
  · rw [Dict.lookup_setItem]
    simp

/-- Witness for claim C3 at the unrecognized key `"zzz"` and the
recognized key `"proxies"`. -/
theorem set_validation_witness :
    Configuration.make [] [("zzz", Val.null)] =
      .error (.valueError ("invalid key: " ++ "zzz")) ∧
    defaultCfg.set "zzz" Val.null =
      .error (.valueError ("non-existent option: " ++ "zzz")) ∧
    defaultCfg.set "proxies" (Val.str "x") =
      .ok ⟨defaultCfg.user_options,
        Dict.setItem defaultCfg.store "proxies" (Val.str "x")⟩ ∧
    Dict.lookup (Dict.setItem defaultCfg.store "proxies" (Val.str "x"))
        "proxies" = some (Val.str "x") :=
  set_validation "zzz" "proxies" Val.null (Val.str "x") defaultCfg defaultCfg
    (by decide) (by decide)

/-- Claim C4: with valid keywords, more positional arguments than schema
keys fails with `TypeError("takes at most 18 arguments (n given)")`; a
positional argument whose schema key is also supplied as a keyword makes
construction fail with a TypeError (never a silent override); in
particular `Configuration("a", client_cert="a")` fails with
`TypeError("multiple values for keyword argument: client_cert")`. -/
theorem constructor_arity (args args2 : List Val)
    (kwargs kwargs2 : List (String × Val)) (i : Nat) (key : String)
    (hv : ValidKeys kwargs) (hlen : args.length > keylist.length)
    (hv2 : ValidKeys kwargs2) (hi : i < args2.length)
    (hkey : keylist.get? i = some key)
    (hcoll : Dict.hasKey kwargs2 key = true) :
    Configuration.make args kwargs = .error (.typeError
      ("takes at most " ++ toString keylist.length ++ " arguments (" ++
        toString args.length ++ " given)")) ∧
    isTypeError (Configuration.make args2 kwargs2) = true ∧
    Configuration.make [Val.str "a"] [("client_cert", Val.str "a")] =
      .error (.typeError "multiple values for keyword argument: client_cert") := by
  refine ⟨?_, ?_, by decide⟩
  · unfold Configuration.make makeOptions
    rw [addKwargs_ok kwargs [] hv]
    simp [hlen]
  · by_cases hlen2 : args2.length > keylist.length
    · unfold Configuration.make makeOptions
      rw [addKwargs_ok kwargs2 [] hv2]
      simp [hlen2, isTypeError]
    · have hck : Dict.hasKey (Dict.update [] kwargs2) key = true := by
        rw [Dict.hasKey_update]
        simp [hcoll]
      obtain ⟨msg, hmsg⟩ :=
        addArgs_collision args2 keylist (Dict.update [] kwargs2) i key hi hkey hck
      unfold Configuration.make makeOptions
      rw [addKwargs_ok kwargs2 [] hv2]
      simp [hlen2, hmsg, isTypeError]

/-- Witness for claim C4: nineteen positional arguments overflow the
18-key schema; one positional argument plus the keyword `client_cert`
collides at index 0. -/
theorem constructor_arity_witness :
    Configuration.make (List.replicate 19 Val.null) [] = .error (.typeError
      ("takes at most " ++ toString keylist.length ++ " arguments (" ++
        toString (List.replicate 19 Val.null).length ++ " given)")) ∧
    isTypeError
      (Configuration.make [Val.str "a"] [("client_cert", Val.str "a")]) = true ∧
    Configuration.make [Val.str "a"] [("client_cert", Val.str "a")] =
      .error (.typeError "multiple values for keyword argument: client_cert") :=
  constructor_arity (List.replicate 19 Val.null) [Val.str "a"] []
    [("client_cert", Val.str "a")] 0 "client_cert" (by decide) (by decide)
    (by decide) (by decide) (by decide) (by decide)

/-- Claim C5: the embedded constructor is a pure function, so repeated
calls agree definitionally; `Configuration()` succeeds and its `as_dict`
is exactly the Option Schema mapping: every schema key present with its
default value and nothing else. -/
theorem defaults_as_dict :
    Configuration.make [] [] = .ok defaultCfg ∧
    defaultCfg.as_dict = OPTIONS ∧
    Dict.keys defaultCfg.as_dict = keylist :=
  ⟨by decide, rfl, rfl⟩

/-- Claim C6: merging two all-default configurations (empty override
sets) yields an all-default configuration: `a.merge(b).as_dict()` equals
`Configuration().as_dict()`, the schema defaults. -/
theorem merge_defaults_neutral :
    Configuration.make [] [] = .ok defaultCfg ∧
    defaultCfg.merge defaultCfg = .ok defaultCfg ∧
    defaultCfg.as_dict = OPTIONS :=
  ⟨by decide, by decide, rfl⟩

/-- Claim C7: serialization round-trips. For an override mapping `m` with
distinct schema keys, `Configuration(**m)` succeeds, re-parsing its
serialized form via `from_dict` succeeds, and the resulting effective
mapping agrees with the original at every key (JSON encode/decode is
modelled as the identity on the scalar-valued mapping). -/
theorem serialization_roundtrip (m : Dict) (k : String)
    (hn : Dict.KeysNodup m) (hv : ValidKeys m) :
    Configuration.make [] m = .ok ⟨m, Dict.update OPTIONS m⟩ ∧
    Configuration.from_dict
        (Configuration.as_string ⟨m, Dict.update OPTIONS m⟩) =
      .ok ⟨Dict.update OPTIONS m,
        Dict.update OPTIONS (Dict.update OPTIONS m)⟩ ∧
    Dict.lookup
        (Configuration.as_dict ⟨Dict.update OPTIONS m,
          Dict.update OPTIONS (Dict.update OPTIONS m)⟩) k =
      Dict.lookup (Configuration.as_dict ⟨m, Dict.update OPTIONS m⟩) k := by
  have hnS : Dict.KeysNodup (Dict.update OPTIONS m) :=
    Dict.nodup_update OPTIONS m OPTIONS_nodup
  have hvS : ValidKeys (Dict.update OPTIONS m) :=
    valid_update _ _ OPTIONS_valid hv
  refine ⟨make_nil_ok m hn hv, ?_, ?_⟩
  · unfold Configuration.from_dict Configuration.as_string
    exact make_nil_ok _ hnS hvS
  · unfold Configuration.as_dict
    simp only
    rw [Dict.lookup_update _ _ k hnS, Dict.lookup_update _ _ k hn]
    cases hm : Dict.lookup m k <;> cases ho : Dict.lookup OPTIONS k <;>
      simp [orElseO]

/-- Witness for claim C7 at the override mapping `proxies="B"`, read back
at the key `proxies`. -/
theorem serialization_roundtrip_witness :
    Configuration.make [] [("proxies", Val.str "B")] =
      .ok ⟨[("proxies", Val.str "B")],
        Dict.update OPTIONS [("proxies", Val.str "B")]⟩ ∧
    Configuration.from_dict
        (Configuration.as_string ⟨[("proxies", Val.str "B")],
          Dict.update OPTIONS [("proxies", Val.str "B")]⟩) =
      .ok ⟨Dict.update OPTIONS [("proxies", Val.str "B")],
        Dict.update OPTIONS
          (Dict.update OPTIONS [("proxies", Val.str "B")])⟩ ∧
    Dict.lookup
        (Configuration.as_dict ⟨Dict.update OPTIONS [("proxies", Val.str "B")],
          Dict.update OPTIONS
            (Dict.update OPTIONS [("proxies", Val.str "B")])⟩) "proxies" =
      Dict.lookup (Configuration.as_dict ⟨[("proxies", Val.str "B")],
        Dict.update OPTIONS [("proxies", Val.str "B")]⟩) "proxies" :=
  serialization_roundtrip [("proxies", Val.str "B")] "proxies"
    (by decide) (by decide)

/-- Claim C8: the environment reader. With `drop_null` true, every entry
of the result comes from a requested name that was found in the
environment (with its environment value); with `drop_null` false, every
requested name is present, mapped to its found value or to the default
when missing, and nothing but requested names appears. The embedded
`getenv` only reads the environment (it is a function of the environment
value and returns a fresh mapping). -/
theorem getenv_mapping (env : Env) (names : List String) (dflt : Val)
    (k1 k2 k3 : String) (v : Val)
    (h1 : Dict.lookup (getenv env names dflt true) k1 = some v)
    (h2 : k2 ∈ names)
    (h3 : Dict.hasKey (getenv env names dflt false) k3 = true) :
    (k1 ∈ names ∧ Env.getenv env k1 ≠ none ∧
      v = (match Env.getenv env k1 with
           | some s => Val.str s
           | none => dflt)) ∧
    Dict.lookup (getenv env names dflt false) k2 =
      some (match Env.getenv env k2 with
            | some s => Val.str s
            | none => dflt) ∧
    k3 ∈ names := by
  refine ⟨?_, ?_, ?_⟩
  · unfold getenv at h1
    rcases getenv_drop_lookup env dflt names [] k1 v h1 with
      ⟨hmem, s, hs, hv⟩ | hnil
    · refine ⟨hmem, by simp [hs], by rw [hs]; exact hv⟩
    · simp [Dict.lookup] at hnil
  · unfold getenv
    exact getenv_keep_lookup env dflt names [] k2 h2
  · unfold getenv at h3
    rcases getenv_hasKey_mem env dflt false names [] k3 h3 with hmem | hnil
    · exact hmem
    · simp [Dict.hasKey, Dict.lookup] at hnil

/-- Witness for claim C8 on the one-variable environment `proxies=P`. -/
theorem getenv_mapping_witness :
    ("proxies" ∈ ["proxies"] ∧
      Env.getenv [("proxies", "P")] "proxies" ≠ none ∧
      Val.str "P" = (match Env.getenv [("proxies", "P")] "proxies" with
           | some s => Val.str s
           | none => Val.null)) ∧
    Dict.lookup (getenv [("proxies", "P")] ["proxies"] Val.null false)
        "proxies" =
      some (match Env.getenv [("proxies", "P")] "proxies" with
            | some s => Val.str s
            | none => Val.null) ∧
    "proxies" ∈ ["proxies"] :=
  getenv_mapping [("proxies", "P")] ["proxies"] Val.null "proxies" "proxies"
    "proxies" (Val.str "P") (by decide) (by decide) (by decide)

/-- Claim C9: `Configuration.get_env(key, default)` never returns a
Configuration. For a schema key it passes validation and then fails
constructing with the literal keyword name `key` (not a schema option);
for a non-schema key the strict validation fails first. -/
theorem get_env_always_fails (env : Env) (key : String) (dflt : Val)
    (c : Configuration) :
    Configuration.get_env env key dflt = .error (.valueError
      (if Dict.hasKey OPTIONS key then "invalid key: key"
       else "non-existent option: " ++ key)) ∧
    Configuration.get_env env key dflt ≠ .ok c := by
  have hkk : Dict.hasKey OPTIONS "key" = false := by decide
  have h1 : Configuration.get_env env key dflt = .error (.valueError
      (if Dict.hasKey OPTIONS key then "invalid key: key"
       else "non-existent option: " ++ key)) := by
    unfold Configuration.get_env validate_key
    by_cases h : Dict.hasKey OPTIONS key = true
    · simp only [h, if_true, not_true, if_false]
      simp [Configuration.make, makeOptions, addKwargs, hkk]
    · simp [h]
  refine ⟨h1, ?_⟩
  rw [h1]
  simp

/-- Witness for claim C9 at the valid schema key `proxies`. -/
theorem get_env_always_fails_witness :
    Configuration.get_env [] "proxies" Val.null = .error (.valueError
      (if Dict.hasKey OPTIONS "proxies" then "invalid key: key"
       else "non-existent option: " ++ "proxies")) ∧
    Configuration.get_env [] "proxies" Val.null ≠ .ok defaultCfg :=
  get_env_always_fails [] "proxies" Val.null defaultCfg

/-- Claim C10: `__getitem__` is bound to `get` with `strict=False` and
`default=None`, so indexing with a key outside the Option Schema returns
`None` instead of raising. -/
theorem getitem_nonstrict_default (c : Configuration) (key : String)
    (h : Dict.hasKey OPTIONS key = false) :
    c.getItem key = .ok Val.null := by
  simp [Configuration.getItem, Configuration.get, h]

/-- Witness for claim C10 at the unrecognized key `"zzz"`. -/
theorem getitem_nonstrict_default_witness :
    Dict.hasKey OPTIONS "zzz" = false ∧
    defaultCfg.getItem "zzz" = .ok Val.null :=
  ⟨by decide, getitem_nonstrict_default defaultCfg "zzz" (by decide)⟩

end Skeleton
